import Mathlib

/-!
Verification of the golly runtime-bootstrap subsystem (package `command` and
package `runtime`): the exit-handler chain, the single-instance process lock,
signal-handler registration, CPU-count detection and the external command
runner. Each Go function is shallowly embedded as a Lean definition; effects
on the outside world (filesystem, child processes) are made explicit as
parameters and state.
-/

namespace Golly

/-! ## Exit-handler chain

The Go source keeps a global slice `exitHandlers` of zero-argument callbacks.
We model a callback as a state transformer over an abstract state `σ` (for the
ordering claims `σ` is instantiated with an invocation trace, for the lock
claims with the filesystem). -/

/-- Embeds `RunExitHandlers`: `for _, handler := range exitHandlers { handler() }`.
The handlers run left to right over the state; the slice itself is not
modified or cleared by the loop. -/
def RunExitHandlers {σ : Type} (handlers : List (σ → σ)) (s : σ) : σ :=
  handlers.foldl (fun s h => h s) s

/-- Embeds `RegisterExitHandler`: `exitHandlers = append(exitHandlers, handler)`. -/
def RegisterExitHandler {σ : Type} (handlers : List (σ → σ)) (h : σ → σ) :
    List (σ → σ) :=
  handlers ++ [h]

/-- Outcome of the terminating path `Exit`: the state after the exit chain ran,
and the process exit code passed to `os.Exit`. -/
structure ExitOutcome (σ : Type) where
  finalState : σ
  code : Nat
  deriving Repr, DecidableEq

/-- Embeds `Exit(code)`: `log.Wait(); RunExitHandlers(); os.Exit(code)`.
`log.Wait` only flushes the external logger, which has no effect on the
modelled state. -/
def Exit {σ : Type} (handlers : List (σ → σ)) (code : Nat) (s : σ) :
    ExitOutcome σ :=
  ⟨RunExitHandlers handlers s, code⟩

/-- A handler that records its own tag at the end of an invocation trace;
used to observe the order and multiplicity of handler invocations. -/
def appendTag (t : String) (trace : List String) : List String :=
  trace ++ [t]

theorem runExitHandlers_append {σ : Type} (h1 h2 : List (σ → σ)) (s : σ) :
    RunExitHandlers (h1 ++ h2) s = RunExitHandlers h2 (RunExitHandlers h1 s) := by
  simp [RunExitHandlers, List.foldl_append]

theorem runExitHandlers_tags (tags : List String) (s : List String) :
    RunExitHandlers (tags.map appendTag) s = s ++ tags := by
  induction tags generalizing s with
  | nil => simp [RunExitHandlers]
  | cons t ts ih =>
      have step : RunExitHandlers ((t :: ts).map appendTag) s
          = RunExitHandlers (ts.map appendTag) (appendTag t s) := by
        simp [RunExitHandlers]
      rw [step, ih]
      simp [appendTag]

theorem register_foldl_tags (tags : List String)
    (init : List (List String → List String)) :
    tags.foldl (fun hs t => RegisterExitHandler hs (appendTag t)) init
      = init ++ tags.map appendTag := by
  induction tags generalizing init with
  | nil => simp
  | cons t ts ih =>
      simp only [List.foldl_cons, List.map_cons]
      rw [ih]
      simp [RegisterExitHandler]

/-- Claim C2: registering handlers tagged `[A, B, C, ...]` with
`RegisterExitHandler` and then making a single call to `RunExitHandlers`
invokes each registered handler exactly once, in exact registration (FIFO)
order: the invocation trace appended to any starting trace is precisely the
tag list in order. -/
theorem C2_runExitHandlers_fifo_once (tags : List String) (s : List String) :
    RunExitHandlers
      (tags.foldl (fun hs t => RegisterExitHandler hs (appendTag t)) []) s
      = s ++ tags := by
  rw [register_foldl_tags, List.nil_append, runExitHandlers_tags]

/-- Claim C1 counterexample: the chain is NOT drained at most once.
`RunExitHandlers` has no single-shot guard and does not consume the handler
slice, so when termination is triggered from two paths (both reach
`RunExitHandlers` before the first reaches `os.Exit`) a registered handler is
invoked a second time: with a single handler tagged "A", two runs leave "A"
in the trace twice. -/
theorem C1_counterexample :
    ((RunExitHandlers [appendTag "A"]
        (RunExitHandlers [appendTag "A"] ([] : List String))).count "A") = 2 := by
  rfl

/-- Claim C1 (amended): each call to `RunExitHandlers` invokes every handler
exactly once in FIFO order, but there is no single-shot guard and the chain
is not consumed, so a second termination trigger re-invokes every registered
handler again: after two runs each tag occurs twice in the trace. -/
theorem C1_amended_no_single_shot_guard (tags : List String) (s : List String) :
    RunExitHandlers (tags.map appendTag)
      (RunExitHandlers (tags.map appendTag) s) = s ++ tags ++ tags := by
  rw [runExitHandlers_tags, runExitHandlers_tags]

/-! ## Process lock

The filesystem is modelled as the set of existing paths, kept as a duplicate
free list of strings. `os.OpenFile(..., O_CREATE|O_WRONLY, 0666)` creates the
path if absent (an existing path is simply opened); `os.Link(src, dst)` fails
when `dst` already exists (or `src` is missing); `os.Remove(p)` deletes `p`,
and its error (for a missing path) is ignored wherever the Go source discards
the return value. Environmental failures of the initial create (permissions,
missing directory) are modelled by the `openOk` oracle. -/

/-- A filesystem state: the set of paths that currently exist. -/
abbrev FS := List String

/-- Create a path (`os.OpenFile` with `O_CREATE`): no-op when it already exists. -/
def addPath (p : String) (fs : FS) : FS :=
  if p ∈ fs then fs else p :: fs

/-- Delete a path (`os.Remove`); removing a missing path leaves the
filesystem unchanged (the returned error is discarded by the callers
modelled here). -/
def removePath (p : String) (fs : FS) : FS :=
  fs.filter (fun q => q ≠ p)

/-- Embeds the `Lock` struct: `link`, `file` and the (never set) `acquired`
flag. -/
structure Lock where
  link : String
  file : String
  acquired : Bool
  deriving Repr, DecidableEq

/-- The PID-qualified lock path `path.Join(directory, fmt.Sprintf("%s-%d.lock",
name, os.Getpid()))`; `path.Join` is modelled as `/`-concatenation for clean,
non-empty components. -/
def lockFilePath (dir name : String) (pid : Nat) : String :=
  dir ++ "/" ++ name ++ "-" ++ toString pid ++ ".lock"

/-- The stable link path `path.Join(directory, name+".lock")`. -/
def lockLinkPath (dir name : String) : String :=
  dir ++ "/" ++ name ++ ".lock"

/-- Embeds `ReleaseLock`: `os.Remove(lock.file); os.Remove(lock.link)`. Both
removal errors are discarded, so the operation never fails. -/
def ReleaseLock (lock : Lock) (fs : FS) : FS :=
  removePath lock.link (removePath lock.file fs)

/-- In-process state relevant to `GetLock`: the filesystem and the global
`exitHandlers` slice (whose callbacks act on the filesystem). -/
structure ProcState where
  fs : FS
  handlers : List (FS → FS)

/-- Embeds `GetLock(directory, name)`. `openOk` is the environment oracle for
the initial `os.OpenFile` of the PID-qualified file (`false` means the create
failed and `GetLock` returns the error immediately). The hard link succeeds
exactly when the source exists and the stable target does not; on success the
lock is returned and its release is registered on the exit chain, on failure
the PID-qualified file is removed and no lock is returned. -/
def GetLock (st : ProcState) (dir name : String) (pid : Nat) (openOk : Bool) :
    Option Lock × ProcState :=
  let file := lockFilePath dir name pid
  if openOk then
    let fs1 := addPath file st.fs
    let link := lockLinkPath dir name
    if file ∈ fs1 ∧ link ∉ fs1 then
      let lock : Lock := { link := link, file := file, acquired := false }
      (some lock,
        { fs := addPath link fs1,
          handlers := RegisterExitHandler st.handlers (fun fs => ReleaseLock lock fs) })
    else
      (none, { st with fs := removePath file fs1 })
  else
    (none, st)

theorem mem_addPath_self (p : String) (fs : FS) : p ∈ addPath p fs := by
  unfold addPath
  by_cases h : p ∈ fs <;> simp [h]

theorem mem_addPath_of_ne {q p : String} (fs : FS) (h : q ≠ p) :
    q ∈ addPath p fs ↔ q ∈ fs := by
  unfold addPath
  by_cases hp : p ∈ fs <;> simp [hp, h]

theorem not_mem_removePath (p : String) (fs : FS) : p ∉ removePath p fs := by
  simp [removePath]

theorem removePath_of_not_mem {p : String} {fs : FS} (h : p ∉ fs) :
    removePath p fs = fs := by
  unfold removePath
  exact List.filter_eq_self.mpr (fun q hq => by
    simp only [ne_eq, decide_eq_true_eq]
    exact fun heq => h (heq ▸ hq))

theorem removePath_idem (p : String) (fs : FS) :
    removePath p (removePath p fs) = removePath p fs :=
  removePath_of_not_mem (not_mem_removePath p fs)

theorem removePath_comm (p q : String) (fs : FS) :
    removePath p (removePath q fs) = removePath q (removePath p fs) := by
  simp [removePath, List.filter_filter]
  congr 1
  funext r
  exact Bool.and_comm _ _

/-- Claim C4: `ReleaseLock` removes both the stable link and the PID-qualified
lock file, and it is idempotent: a second (or any further) call on the same
`Lock` cannot error (the removal errors are discarded and the function is
total) and leaves exactly the same final filesystem state. -/
theorem C4_releaseLock_removes_both_and_idempotent (lock : Lock) (fs : FS) :
    lock.file ∉ ReleaseLock lock fs ∧ lock.link ∉ ReleaseLock lock fs ∧
      ReleaseLock lock (ReleaseLock lock fs) = ReleaseLock lock fs := by
  refine ⟨?_, ?_, ?_⟩
  · unfold ReleaseLock
    rw [removePath_comm]
    exact not_mem_removePath lock.file _
  · exact not_mem_removePath lock.link _
  · unfold ReleaseLock
    rw [removePath_comm lock.link lock.file (removePath lock.link (removePath lock.file fs)),
      removePath_idem]
    rw [removePath_comm lock.file lock.link (removePath lock.file fs), removePath_idem]

/-- Claim C3: when the hard-link promotion fails (the stable link already
exists), `GetLock` removes the PID-qualified file it just created and returns
a failure, leaving both the filesystem and the exit-handler chain exactly as
they were: the state it created is fully undone. -/
theorem C3_getLock_link_failure_undoes_create (st : ProcState)
    (dir name : String) (pid : Nat)
    (hfile : lockFilePath dir name pid ∉ st.fs)
    (hlink : lockLinkPath dir name ∈ st.fs) :
    GetLock st dir name pid true = (none, st) := by
  have hlink1 : lockLinkPath dir name ∈ addPath (lockFilePath dir name pid) st.fs := by
    rcases eq_or_ne (lockLinkPath dir name) (lockFilePath dir name pid) with he | hne
    · rw [he]; exact mem_addPath_self _ _
    · exact (mem_addPath_of_ne st.fs hne).mpr hlink
  have hcond : ¬ (lockFilePath dir name pid ∈ addPath (lockFilePath dir name pid) st.fs
      ∧ lockLinkPath dir name ∉ addPath (lockFilePath dir name pid) st.fs) :=
    fun h => h.2 hlink1
  have hrm : removePath (lockFilePath dir name pid)
      (addPath (lockFilePath dir name pid) st.fs) = st.fs := by
    unfold addPath
    rw [if_neg hfile]
    unfold removePath
    rw [List.filter_cons_of_neg (by simp)]
    exact removePath_of_not_mem hfile
  simp only [GetLock, eq_self_iff_true, if_true, hcond, if_false, hrm]

/-- Witness for C3 at a concrete state: the stable link `d/n.lock` exists, the
PID-qualified `d/n-1.lock` does not; `GetLock` fails and returns the state
unchanged. -/
theorem C3_witness :
    GetLock ⟨["d/n.lock"], []⟩ "d" "n" 1 true = (none, ⟨["d/n.lock"], []⟩) :=
  C3_getLock_link_failure_undoes_create ⟨["d/n.lock"], []⟩ "d" "n" 1
    (by decide) (by decide)

theorem mem_of_mem_removePath {q p : String} {fs : FS}
    (h : q ∈ removePath p fs) : q ∈ fs :=
  List.mem_of_mem_filter h

theorem getLock_success {fs : FS} {dir name : String} {pid : Nat}
    (hne : lockFilePath dir name pid ≠ lockLinkPath dir name)
    (hlink : lockLinkPath dir name ∉ fs) (handlers : List (FS → FS)) :
    GetLock ⟨fs, handlers⟩ dir name pid true
      = (some ⟨lockLinkPath dir name, lockFilePath dir name pid, false⟩,
         { fs := addPath (lockLinkPath dir name) (addPath (lockFilePath dir name pid) fs),
           handlers := RegisterExitHandler handlers
             (fun f => ReleaseLock ⟨lockLinkPath dir name, lockFilePath dir name pid, false⟩ f) }) := by
  have h1 : lockFilePath dir name pid ∈ addPath (lockFilePath dir name pid) fs :=
    mem_addPath_self _ _
  have h2 : lockLinkPath dir name ∉ addPath (lockFilePath dir name pid) fs :=
    fun h => hlink ((mem_addPath_of_ne fs (Ne.symm hne)).mp h)
  simp [GetLock, h1, h2]

/-- Claim C9: on successful acquisition (stable link absent), `GetLock`
returns a `Lock` and registers exactly one callback, the release of that
lock, with the exit-handler chain; running the exit chain then removes both
lock files from the filesystem, and a subsequent acquisition with the same
`(directory, name)` pair (any PID) succeeds. -/
theorem C9_getLock_success_registers_release (fs : FS) (dir name : String)
    (pid pid2 : Nat)
    (hlink : lockLinkPath dir name ∉ fs)
    (hne : lockFilePath dir name pid ≠ lockLinkPath dir name)
    (hne2 : lockFilePath dir name pid2 ≠ lockLinkPath dir name) :
    ∃ (lock : Lock) (st' : ProcState),
      GetLock ⟨fs, []⟩ dir name pid true = (some lock, st') ∧
      st'.handlers = [fun f => ReleaseLock lock f] ∧
      lock.file ∉ RunExitHandlers st'.handlers st'.fs ∧
      lock.link ∉ RunExitHandlers st'.handlers st'.fs ∧
      (GetLock ⟨RunExitHandlers st'.handlers st'.fs, []⟩ dir name pid2 true).1
        = some ⟨lockLinkPath dir name, lockFilePath dir name pid2, false⟩ := by
  set lock : Lock := ⟨lockLinkPath dir name, lockFilePath dir name pid, false⟩ with hlock
  refine ⟨lock, _, getLock_success hne hlink [], ?_, ?_, ?_, ?_⟩
  · simp [RegisterExitHandler]
  · show lock.file ∉ RunExitHandlers (RegisterExitHandler [] fun f => ReleaseLock lock f) _
    simp only [RegisterExitHandler, List.nil_append, RunExitHandlers, List.foldl_cons,
      List.foldl_nil]
    intro h
    exact not_mem_removePath lock.file _
      (mem_of_mem_removePath (by rwa [ReleaseLock, removePath_comm] at h))
  · show lock.link ∉ RunExitHandlers (RegisterExitHandler [] fun f => ReleaseLock lock f) _
    simp only [RegisterExitHandler, List.nil_append, RunExitHandlers, List.foldl_cons,
      List.foldl_nil]
    exact not_mem_removePath lock.link _
  · show (GetLock ⟨RunExitHandlers (RegisterExitHandler [] fun f => ReleaseLock lock f) _,
        []⟩ dir name pid2 true).1 = _
    simp only [RegisterExitHandler, List.nil_append, RunExitHandlers, List.foldl_cons,
      List.foldl_nil]
    have hlink2 : lockLinkPath dir name
        ∉ ReleaseLock lock (addPath (lockLinkPath dir name)
            (addPath (lockFilePath dir name pid) fs)) := by
      exact not_mem_removePath _ _
    rw [getLock_success hne2 hlink2 []]

/-- Witness for C9 at a concrete state: empty filesystem, `(dir, name) =
("d", "n")`, first PID 1, second PID 2. -/
theorem C9_witness :
    ∃ (lock : Lock) (st' : ProcState),
      GetLock ⟨[], []⟩ "d" "n" 1 true = (some lock, st') ∧
      st'.handlers = [fun f => ReleaseLock lock f] ∧
      lock.file ∉ RunExitHandlers st'.handlers st'.fs ∧
      lock.link ∉ RunExitHandlers st'.handlers st'.fs ∧
      (GetLock ⟨RunExitHandlers st'.handlers st'.fs, []⟩ "d" "n" 2 true).1
        = some ⟨lockLinkPath "d" "n", lockFilePath "d" "n" 2, false⟩ :=
  C9_getLock_success_registers_release [] "d" "n" 1 2
    (by decide) (by decide) (by decide)

/-- Claim C10: on every failure path of `GetLock` (the initial create fails,
or the hard-link promotion fails because the stable link exists), no lock is
returned and the exit-handler chain is left exactly as it was: no release
callback is registered. -/
theorem C10_getLock_failure_frame (st : ProcState) (dir name : String)
    (pid : Nat) (openOk : Bool)
    (hfail : openOk = false
      ∨ lockLinkPath dir name ∈ addPath (lockFilePath dir name pid) st.fs) :
    (GetLock st dir name pid openOk).1 = none ∧
      (GetLock st dir name pid openOk).2.handlers = st.handlers := by
  rcases hfail with h | h
  · subst h
    simp [GetLock]
  · have hcond : ¬ (lockFilePath dir name pid ∈ addPath (lockFilePath dir name pid) st.fs
        ∧ lockLinkPath dir name ∉ addPath (lockFilePath dir name pid) st.fs) :=
      fun hc => hc.2 h
    cases openOk with
    | false => simp [GetLock]
    | true =>
        simp only [GetLock, eq_self_iff_true, if_true, hcond, if_false]
        exact ⟨trivial, trivial⟩

/-- Witness for C10 at a concrete failing input: the initial create fails. -/
theorem C10_witness :
    (GetLock ⟨[], []⟩ "d" "n" 1 false).1 = none ∧
      (GetLock ⟨[], []⟩ "d" "n" 1 false).2.handlers = ([] : List (FS → FS)) :=
  C10_getLock_failure_frame ⟨[], []⟩ "d" "n" 1 false (Or.inl rfl)

/-! ## Command runner (`GetOutput`, `CommandError`)

The fallible steps of `GetOutput` — `os.Pipe`, `os.StartProcess`,
`process.Wait` and the `io.Copy` read of the output pipe — depend on the
outside world; their outcomes are supplied as an `ExecEnv` oracle. -/

/-- Embeds the `CommandError` struct: the attempted command path and its full
argument list. -/
structure CommandError where
  Command : String
  Args : List String
  deriving Repr, DecidableEq

/-- Outcomes of the four fallible steps of `GetOutput`: pipe creation, process
start, wait, and the read of the output pipe (`none` means the read failed,
`some out` means the child's standard output was `out`). -/
structure ExecEnv where
  pipeOk : Bool
  startOk : Bool
  waitOk : Bool
  readResult : Option String
  deriving Repr, DecidableEq

/-- Embeds `GetOutput(args)`: every failing step jumps to the single `Error:`
label, which returns `("", &CommandError{args[0], args})`; on full success the
captured output is returned with a nil error. `args.headD ""` stands for
`args[0]` (the Go code indexes unconditionally; callers pass non-empty argv). -/
def GetOutput (env : ExecEnv) (args : List String) : Except CommandError String :=
  if !env.pipeOk then Except.error ⟨args.headD "", args⟩
  else if !env.startOk then Except.error ⟨args.headD "", args⟩
  else if !env.waitOk then Except.error ⟨args.headD "", args⟩
  else
    match env.readResult with
    | none => Except.error ⟨args.headD "", args⟩
    | some out => Except.ok out

/-- Claim C6: every failure path of `GetOutput` — pipe creation, spawn, wait,
or the read of the output pipe — returns the same single error kind, a
`CommandError` carrying the attempted command path `args[0]` and the full
argument list, with no distinction between the causes. -/
theorem C6_getOutput_single_error_kind (env : ExecEnv) (a : String)
    (args : List String)
    (hfail : env.pipeOk = false ∨ env.startOk = false ∨ env.waitOk = false
      ∨ env.readResult = none) :
    GetOutput env (a :: args) = Except.error ⟨a, a :: args⟩ := by
  obtain ⟨p, s2, w, r⟩ := env
  simp only [GetOutput] at *
  cases p <;> cases s2 <;> cases w <;> cases r <;> simp_all

/-- Witness for C6 at a concrete input: pipe creation fails for
`["/bin/ls"]`. -/
theorem C6_witness :
    GetOutput ⟨false, true, true, some "x"⟩ ["/bin/ls"]
      = Except.error ⟨"/bin/ls", ["/bin/ls"]⟩ :=
  C6_getOutput_single_error_kind ⟨false, true, true, some "x"⟩ "/bin/ls" []
    (Or.inl rfl)

/-! ## CPU detection (`GetCPUCount`)

`GetCPUCount` shells out via `command.GetOutput`; the oracle `sysctlOut` is
the result of `/usr/sbin/sysctl -n hw.ncpu` (`none` = the command failed) and
`cpuinfoOut` the result of `/bin/cat /proc/cpuinfo`. The string helpers below
embed `strings.TrimSpace`, `strconv.Atoi`, `strings.Split` and the
`strings.HasPrefix` test used by the source. -/

/-- The numeric value of an ASCII digit, `none` for any other character. -/
def digitVal (c : Char) : Option Nat :=
  if '0' ≤ c ∧ c ≤ '9' then some (c.toNat - '0'.toNat) else none

/-- Accumulate a decimal number over a digit list; fails on any non-digit. -/
def atoiDigits : List Char → Nat → Option Nat
  | [], acc => some acc
  | c :: cs, acc =>
    match digitVal c with
    | some d => atoiDigits cs (acc * 10 + d)
    | none => none

/-- Embeds `strconv.Atoi`: an optional sign followed by at least one decimal
digit; anything else is an error. (Go additionally errors on 64-bit overflow,
which this unbounded model does not reproduce; an overflowing parse only makes
the Go code return 1 through its error branch.) -/
def atoi (s : String) : Option Int :=
  match s.data with
  | [] => none
  | '+' :: rest =>
      if rest = [] then none else (atoiDigits rest 0).map (fun n => (n : Int))
  | '-' :: rest =>
      if rest = [] then none else (atoiDigits rest 0).map (fun n => -(n : Int))
  | cs => (atoiDigits cs 0).map (fun n => (n : Int))

/-- Embeds `strings.TrimSpace`: drop whitespace from both ends. -/
def trimSpace (s : String) : String :=
  String.mk
    (((s.data.dropWhile Char.isWhitespace).reverse.dropWhile Char.isWhitespace).reverse)

/-- Embeds `GetCPUCount()`. On darwin/freebsd the sysctl output is trimmed and
parsed with `Atoi` (any command or parse error returns 1); on linux the lines
of `/proc/cpuinfo` beginning with "processor" are counted (a command error
returns 1); any other platform leaves `count` at zero. The final
`if count == 0 { return 1 }` guard of the source is applied to each branch's
count. -/
def GetCPUCount (platform : String) (sysctlOut cpuinfoOut : Option String) :
    Int :=
  if platform = "darwin" ∨ platform = "freebsd" then
    match sysctlOut with
    | none => 1
    | some output =>
        match atoi (trimSpace output) with
        | none => 1
        | some count => if count = 0 then 1 else count
  else if platform = "linux" then
    match cpuinfoOut with
    | none => 1
    | some output =>
        let count := ((output.splitOn "\n").filter
          (fun line => String.isPrefixOf "processor" line)).length
        if count = 0 then 1 else (count : Int)
  else 1

/-- Claim C5 counterexample: `GetCPUCount` is NOT always at least 1. On darwin,
a sysctl output of `"-5\n"` parses successfully to `-5`, which is nonzero, so
the zero guard does not fire and `-5` is returned outward. -/
theorem C5_counterexample : GetCPUCount "darwin" (some "-5\x0a") none = -5 := by
  rfl

/-- Claim C5 (amended): `GetCPUCount` returns at least 1 on every platform and
for every failure or output of the underlying commands, provided the
darwin/freebsd sysctl output does not parse to a negative integer; a negative
parsed value (the only escape) is returned as-is. On linux and unknown
platforms the result is unconditionally at least 1. -/
theorem C5_amended_cpu_count_positive (platform : String)
    (sysctlOut cpuinfoOut : Option String)
    (h : ∀ o, sysctlOut = some o → ∀ n : Int, atoi (trimSpace o) = some n → 0 ≤ n) :
    1 ≤ GetCPUCount platform sysctlOut cpuinfoOut := by
  unfold GetCPUCount
  by_cases hplat : platform = "darwin" ∨ platform = "freebsd"
  · rw [if_pos hplat]
    cases sysctlOut with
    | none => norm_num
    | some o =>
        cases hatoi : atoi (trimSpace o) with
        | none => simp [hatoi]
        | some n =>
            have hn : 0 ≤ n := h o rfl n hatoi
            simp only [hatoi]
            by_cases hz : n = 0
            · simp [hz]
            · rw [if_neg hz]
              omega
  · rw [if_neg hplat]
    by_cases hlin : platform = "linux"
    · rw [if_pos hlin]
      cases cpuinfoOut with
      | none => norm_num
      | some o =>
          simp only
          by_cases hz : ((o.splitOn "\x0a").filter
              (fun line => String.isPrefixOf "processor" line)).length = 0
          · simp [hz]
          · rw [if_neg hz]
            omega
    · rw [if_neg hlin]

/-- Witness for C5 (amended) at a concrete input: darwin with a failed sysctl
command returns 1. -/
theorem C5_witness : 1 ≤ GetCPUCount "darwin" none none :=
  C5_amended_cpu_count_positive "darwin" none none (fun _ ho => nomatch ho)

/-! ## Signal handlers and process initialization

`init()` fills the global `SignalHandlers` map with `Exit(0)` closures for
`os.Interrupt` and `syscall.SIGTERM`. The map is modelled as an association
list over an abstract signal type; the handler closures only ever call `Exit`
with a fixed code, captured by `SigAction`. -/

/-- Abstract OS signals: the two with default registrations, and all others. -/
inductive Sig
  | interrupt
  | sigterm
  | other (n : Nat)
  deriving Repr, DecidableEq

/-- The action of a registered signal-handler closure: call `Exit(code)`. -/
inductive SigAction
  | exitWith (code : Nat)
  deriving Repr, DecidableEq

/-- Embeds the registrations of `init()`:
`SignalHandlers[os.Interrupt] = func() { Exit(0) }` and
`SignalHandlers[syscall.SIGTERM] = func() { Exit(0) }`. -/
def initSignalHandlers : List (Sig × SigAction) :=
  [(Sig.interrupt, SigAction.exitWith 0), (Sig.sigterm, SigAction.exitWith 0)]

/-- Map lookup, as done by the `handleSignals` loop:
`handler, found := SignalHandlers[sig]; if found { handler() }`. -/
def lookupHandler (table : List (Sig × SigAction)) (s : Sig) : Option SigAction :=
  match table with
  | [] => none
  | (k, v) :: rest => if k = s then some v else lookupHandler rest s

/-- Run a signal handler's action against the registered exit chain. -/
def runSigAction {σ : Type} (a : SigAction) (handlers : List (σ → σ)) (s : σ) :
    ExitOutcome σ :=
  match a with
  | SigAction.exitWith c => Exit handlers c s

/-- Claim C7: after `init()`, both the interrupt signal and the termination
signal are registered to handlers calling the single termination path with
code 0: the lookup finds a handler, and running it produces exit code 0 with
every registered exit handler having run, in order. -/
theorem C7_default_signal_handlers_exit_zero (sig : Sig)
    (hsig : sig = Sig.interrupt ∨ sig = Sig.sigterm)
    (tags : List String) (s : List String) :
    ∃ a, lookupHandler initSignalHandlers sig = some a ∧
      runSigAction a (tags.map appendTag) s = ⟨s ++ tags, 0⟩ := by
  refine ⟨SigAction.exitWith 0, ?_, ?_⟩
  · rcases hsig with h | h <;> subst h <;> rfl
  · simp [runSigAction, Exit, runExitHandlers_tags]

/-- Witness for C7 at a concrete input: the interrupt signal, one registered
handler tagged "A". -/
theorem C7_witness :
    ∃ a, lookupHandler initSignalHandlers Sig.interrupt = some a ∧
      runSigAction a [appendTag "A"] [] = ⟨["A"], 0⟩ :=
  C7_default_signal_handlers_exit_zero Sig.interrupt (Or.inl rfl) ["A"] []

/-! ## PID file (`CreatePidFile`)

`CreatePidFile(path)` opens the file with `O_CREATE|O_WRONLY`, writes the PID
with `fmt.Fprintf` (whose error is discarded), and closes it. The open and
close outcomes are environment oracles. On either failure the Go code calls
`StandardError(err)`, which logs the error and calls `Exit(1)`. `InitProcess`
launches `CreatePidFile` on a separate goroutine, so the caller does not wait
for it — but `Exit` inside the goroutine still terminates the whole
process. -/

/-- Embeds `CreatePidFile(path)`: `some outcome` when the failure path
terminated the process via `StandardError` / `Exit(1)`, `none` when the
function returned normally. -/
def CreatePidFile {σ : Type} (handlers : List (σ → σ)) (openOk closeOk : Bool)
    (s : σ) : Option (ExitOutcome σ) :=
  if !openOk then some (Exit handlers 1 s)
  else if !closeOk then some (Exit handlers 1 s)
  else none

/-- Claim C8 counterexample: a failure to close the PID file DOES make the
process fail: `CreatePidFile` reaches `StandardError`, which terminates the
process with exit code 1 instead of returning normally (`none`). -/
theorem C8_counterexample :
    CreatePidFile ([] : List (List String → List String)) true false
      ([] : List String) = some ⟨[], 1⟩ := by
  rfl

/-- Claim C8 (amended): the PID file write is only asynchronous (`InitProcess`
spawns it without waiting), not best-effort: a failure to create or to close
the PID file invokes the fatal error path, which runs the exit chain and
terminates the whole process with exit code 1. -/
theorem C8_amended_pid_file_failure_is_fatal {σ : Type}
    (handlers : List (σ → σ)) (openOk closeOk : Bool) (s : σ)
    (h : openOk = false ∨ closeOk = false) :
    CreatePidFile handlers openOk closeOk s = some (Exit handlers 1 s) := by
  rcases h with h | h
  · subst h; rfl
  · subst h
    cases openOk <;> rfl

/-- Witness for C8 (amended) at a concrete input: the open fails. -/
theorem C8_witness :
    CreatePidFile ([] : List (List String → List String)) false true
      ([] : List String)
      = some (Exit ([] : List (List String → List String)) 1 ([] : List String)) :=
  C8_amended_pid_file_failure_is_fatal [] false true [] (Or.inl rfl)

end Golly
